import Mathlib

set_option maxHeartbeats 1000000

namespace GamingReduction

/-!
Shallow embedding of the identity-resolution / record-linkage pipeline of the
gaming-reduction-backend repository (src/monitoring/join_diary_activitywatch.py,
src/monitoring/parse_json_uploads.py, src/monitoring/ocr/gemini_screenshot_analyzer.py).

Python dicts are modelled as association lists with unique keys; `alistInsert`
implements `d[k] = v` (replace in place, else append), `alistGet` implements
`d.get(k)`.  Python `str.strip()` is modelled by `pyStrip` over the ASCII
whitespace characters it removes.
-/

/-- Characters removed by Python `str.strip()` (ASCII whitespace subset). -/
def isPySpace (c : Char) : Bool :=
  c = ' ' ∨ c = '\t' ∨ c = '\n' ∨ c = '\r' ∨ c = Char.ofNat 11 ∨ c = Char.ofNat 12

/-- Model of Python `str.strip()`: drop leading and trailing whitespace. -/
def pyStrip (s : String) : String :=
  String.mk (((s.data.dropWhile isPySpace).reverse.dropWhile isPySpace).reverse)

/-- Model of Python `d.get(k)` on a dict represented as an association list. -/
def alistGet {α : Type} (m : List (String × α)) (k : String) : Option α :=
  match m with
  | [] => none
  | (k', v) :: rest => if k' = k then some v else alistGet rest k

/-- Model of Python `d[k] = v`: replace the existing binding in place, else append. -/
def alistInsert {α : Type} (m : List (String × α)) (k : String) (v : α) :
    List (String × α) :=
  match m with
  | [] => [(k, v)]
  | (k', v') :: rest => if k' = k then (k, v) :: rest else (k', v') :: alistInsert rest k v

/-- The keys of an association list, in order. -/
def alistKeys {α : Type} (m : List (String × α)) : List String := m.map Prod.fst

theorem alistKeys_nil {α : Type} : alistKeys ([] : List (String × α)) = [] := rfl

theorem alistKeys_cons {α : Type} (a : String) (b : α) (l : List (String × α)) :
    alistKeys ((a, b) :: l) = a :: alistKeys l := rfl

theorem alistGet_insert {α : Type} (m : List (String × α)) (k k' : String) (v : α) :
    alistGet (alistInsert m k v) k' = if k = k' then some v else alistGet m k' := by
  induction m with
  | nil =>
    by_cases h : k = k' <;> simp [alistInsert, alistGet, h]
  | cons hd tl ih =>
    obtain ⟨k0, v0⟩ := hd
    by_cases h0 : k0 = k
    · subst h0
      by_cases h1 : k0 = k'
      · subst h1
        simp [alistInsert, alistGet]
      · simp [alistInsert, alistGet, h1]
    · by_cases h1 : k0 = k'
      · subst h1
        have hne : ¬ k = k0 := fun h => h0 h.symm
        simp [alistInsert, alistGet, h0, hne]
      · simp [alistInsert, alistGet, h0, h1, ih]

theorem alistInsert_keys_mem {α : Type} (m : List (String × α)) (k : String) (v : α)
    (k' : String) :
    k' ∈ alistKeys (alistInsert m k v) ↔ k' = k ∨ k' ∈ alistKeys m := by
  induction m with
  | nil => simp [alistInsert, alistKeys]
  | cons hd tl ih =>
    obtain ⟨k0, v0⟩ := hd
    by_cases h0 : k0 = k
    · subst h0
      have hins : alistInsert ((k0, v0) :: tl) k0 v = (k0, v) :: tl := by
        simp [alistInsert]
      rw [hins, alistKeys_cons, alistKeys_cons]
      simp only [List.mem_cons]
      tauto
    · have hins : alistInsert ((k0, v0) :: tl) k v = (k0, v0) :: alistInsert tl k v := by
        simp [alistInsert, h0]
      rw [hins, alistKeys_cons, alistKeys_cons]
      simp only [List.mem_cons, ih]
      tauto

theorem alistGet_eq_none_iff {α : Type} (m : List (String × α)) (k : String) :
    alistGet m k = none ↔ k ∉ alistKeys m := by
  induction m with
  | nil => simp [alistGet, alistKeys]
  | cons hd tl ih =>
    obtain ⟨k0, v0⟩ := hd
    by_cases h0 : k0 = k
    · subst h0
      simp [alistGet, alistKeys_cons]
    · have h0' : ¬ k = k0 := fun h => h0 h.symm
      simp [alistGet, h0, h0', alistKeys_cons, List.mem_cons, ih, not_or]

theorem alistInsert_nodup {α : Type} (m : List (String × α)) (k : String) (v : α)
    (h : (alistKeys m).Nodup) : (alistKeys (alistInsert m k v)).Nodup := by
  induction m with
  | nil => simp [alistInsert, alistKeys]
  | cons hd tl ih =>
    obtain ⟨k0, v0⟩ := hd
    rw [alistKeys_cons, List.nodup_cons] at h
    by_cases h0 : k0 = k
    · subst h0
      have hins : alistInsert ((k0, v0) :: tl) k0 v = (k0, v) :: tl := by
        simp [alistInsert]
      rw [hins, alistKeys_cons, List.nodup_cons]
      exact h
    · have hins : alistInsert ((k0, v0) :: tl) k v = (k0, v0) :: alistInsert tl k v := by
        simp [alistInsert, h0]
      rw [hins, alistKeys_cons, List.nodup_cons]
      refine ⟨fun hmem => ?_, ih h.2⟩
      rcases (alistInsert_keys_mem tl k v k0).mp hmem with h1 | h1
      · exact h0 h1
      · exact h.1 h1

/-- Model of Python `d.copy(); d.update(e)`: fold the entries of `e` into `d`. -/
def dict_update {α : Type} (d e : List (String × α)) : List (String × α) :=
  e.foldl (fun acc p => alistInsert acc p.1 p.2) d

theorem dict_update_nodup {α : Type} (e d : List (String × α))
    (h : (alistKeys d).Nodup) : (alistKeys (dict_update d e)).Nodup := by
  induction e generalizing d with
  | nil => exact h
  | cons hd tl ih => exact ih _ (alistInsert_nodup d hd.1 hd.2 h)

theorem alistGet_update_of_none {α : Type} (e d : List (String × α)) (k : String)
    (h : alistGet e k = none) : alistGet (dict_update d e) k = alistGet d k := by
  induction e generalizing d with
  | nil => rfl
  | cons hd tl ih =>
    obtain ⟨k0, v0⟩ := hd
    simp only [alistGet] at h
    by_cases h0 : k0 = k
    · simp [h0] at h
    · rw [if_neg h0] at h
      show alistGet (dict_update (alistInsert d k0 v0) tl) k = alistGet d k
      rw [ih _ h, alistGet_insert, if_neg h0]

theorem alistGet_update_of_get {α : Type} (e d : List (String × α)) (k : String) (v : α)
    (he : (alistKeys e).Nodup) (h : alistGet e k = some v) :
    alistGet (dict_update d e) k = some v := by
  induction e generalizing d with
  | nil => simp [alistGet] at h
  | cons hd tl ih =>
    obtain ⟨k0, v0⟩ := hd
    rw [alistKeys_cons, List.nodup_cons] at he
    simp only [alistGet] at h
    by_cases h0 : k0 = k
    · subst h0
      rw [if_pos rfl] at h
      obtain rfl : v0 = v := Option.some.inj h
      have htl : alistGet tl k0 = none := (alistGet_eq_none_iff tl k0).mpr he.1
      show alistGet (dict_update (alistInsert d k0 v0) tl) k0 = some v0
      rw [alistGet_update_of_none tl _ _ htl, alistGet_insert, if_pos rfl]
    · rw [if_neg h0] at h
      exact ih _ he.2 h

/-!
Identity resolver (join_diary_activitywatch.py: load_diary_unique_tuples,
load_exit_survey_data and the merge in main).
-/

/-- One diary/exit survey CSV row, restricted to the columns the loaders read
(`row.get(col, "")` on a DictReader row). -/
structure SurveyRow where
  androidSubmissionID1 : String
  androidSubmissionID2 : String
  androidSubmissionID3 : String
  RANDOM_ID : String
deriving DecidableEq

/-- Helper for `load_exit_survey_data`: the body of `for aid in [id1, id2, id3]:
if aid: submission_to_random_id[aid] = random_id`. -/
def insertIfNonempty (m : List (String × String)) (aid rid : String) :
    List (String × String) :=
  if aid = "" then m else alistInsert m aid rid

/-- Processing of one exit-survey row inside `load_exit_survey_data`. -/
def exit_row_step (m : List (String × String)) (row : SurveyRow) :
    List (String × String) :=
  let rid := pyStrip row.RANDOM_ID
  if rid = "" then m
  else
    insertIfNonempty
      (insertIfNonempty
        (insertIfNonempty m (pyStrip row.androidSubmissionID1) rid)
        (pyStrip row.androidSubmissionID2) rid)
      (pyStrip row.androidSubmissionID3) rid

/-- Embedding of `load_exit_survey_data`: map every non-empty submission ID of a
row with non-empty RANDOM_ID to that RANDOM_ID. -/
def load_exit_survey_data (rows : List SurveyRow) : List (String × String) :=
  rows.foldl exit_row_step []

/-- Lexicographic (code-point) comparison of char lists, modelling Python string
ordering as used by `sorted`. -/
def charListLe : List Char → List Char → Bool
  | [], _ => true
  | _ :: _, [] => false
  | a :: as, b :: bs => if a < b then true else if b < a then false else charListLe as bs

/-- Model of Python string `<=` (code-point lexicographic). -/
def strLe (a b : String) : Bool := charListLe a.data b.data

/-- Stable insertion into a sorted list (helper for `sortStrings`). -/
def insertSorted (x : String) : List String → List String
  | [] => [x]
  | y :: ys => if strLe x y then x :: y :: ys else y :: insertSorted x ys

/-- Model of Python `sorted` on a list of strings (insertion sort; Python sort is
stable, which coincides for plain strings). -/
def sortStrings (l : List String) : List String := l.foldr insertSorted []

/-- The stripped, non-empty submission IDs of a diary row, in column order
(`[aid for aid in [android_id1, android_id2, android_id3] if aid]`). -/
def trimmedIds (row : SurveyRow) : List String :=
  ([pyStrip row.androidSubmissionID1, pyStrip row.androidSubmissionID2,
    pyStrip row.androidSubmissionID3]).filter (fun a => a ≠ "")

/-- The `tuple(sorted(android_ids))` uniqueness key of a diary row. -/
def tupleKey (row : SurveyRow) : List String := sortStrings (trimmedIds row)

/-- Loop state of `load_diary_unique_tuples`: the map being built and the set of
already-seen sorted submission-ID tuples. -/
structure DiaryState where
  map : List (String × String)
  seen : List (List String)
deriving DecidableEq

/-- Processing of one diary row inside `load_diary_unique_tuples`. -/
def diary_step (st : DiaryState) (row : SurveyRow) : DiaryState :=
  let rid := pyStrip row.RANDOM_ID
  let android_ids := trimmedIds row
  if android_ids = [] ∨ rid = "" then st
  else
    let tk := sortStrings android_ids
    if tk ∈ st.seen then st
    else
      { map := android_ids.foldl (fun m aid => alistInsert m aid rid) st.map,
        seen := tk :: st.seen }

/-- Embedding of `load_diary_unique_tuples`: fold the diary rows through
`diary_step` starting from an empty map and empty seen-set. -/
def load_diary_unique_tuples (rows : List SurveyRow) : List (String × String) :=
  (rows.foldl diary_step ⟨[], []⟩).map

/-- Embedding of the merge in `main` (lines 964-966): `submission_mapping =
diary_submission_mapping.copy(); submission_mapping.update(exit_submission_mapping)`. -/
def merged_submission_mapping (diaryRows exitRows : List SurveyRow) :
    List (String × String) :=
  dict_update (load_diary_unique_tuples diaryRows) (load_exit_survey_data exitRows)

theorem insertIfNonempty_nodup (m : List (String × String)) (aid rid : String)
    (h : (alistKeys m).Nodup) : (alistKeys (insertIfNonempty m aid rid)).Nodup := by
  unfold insertIfNonempty
  split
  · exact h
  · exact alistInsert_nodup m aid rid h

theorem exit_row_step_nodup (m : List (String × String)) (row : SurveyRow)
    (h : (alistKeys m).Nodup) : (alistKeys (exit_row_step m row)).Nodup := by
  simp only [exit_row_step]
  split
  · exact h
  · exact insertIfNonempty_nodup _ _ _ (insertIfNonempty_nodup _ _ _
      (insertIfNonempty_nodup _ _ _ h))

theorem load_exit_nodup_aux (rows : List SurveyRow) (m : List (String × String))
    (h : (alistKeys m).Nodup) : (alistKeys (rows.foldl exit_row_step m)).Nodup := by
  induction rows generalizing m with
  | nil => exact h
  | cons r rest ih => exact ih _ (exit_row_step_nodup m r h)

theorem load_exit_nodup (rows : List SurveyRow) :
    (alistKeys (load_exit_survey_data rows)).Nodup :=
  load_exit_nodup_aux rows [] (by simp [alistKeys])

theorem foldl_alistInsert_nodup (ids : List String) (m : List (String × String))
    (rid : String) (h : (alistKeys m).Nodup) :
    (alistKeys (ids.foldl (fun m aid => alistInsert m aid rid) m)).Nodup := by
  induction ids generalizing m with
  | nil => exact h
  | cons a rest ih => exact ih _ (alistInsert_nodup m a rid h)

theorem diary_step_nodup (st : DiaryState) (row : SurveyRow)
    (h : (alistKeys st.map).Nodup) : (alistKeys (diary_step st row).map).Nodup := by
  simp only [diary_step]
  split
  · exact h
  · split
    · exact h
    · exact foldl_alistInsert_nodup _ _ _ h

theorem load_diary_nodup_aux (rows : List SurveyRow) (st : DiaryState)
    (h : (alistKeys st.map).Nodup) :
    (alistKeys (rows.foldl diary_step st).map).Nodup := by
  induction rows generalizing st with
  | nil => exact h
  | cons r rest ih => exact ih _ (diary_step_nodup st r h)

theorem load_diary_nodup (rows : List SurveyRow) :
    (alistKeys (load_diary_unique_tuples rows)).Nodup :=
  load_diary_nodup_aux rows ⟨[], []⟩ (by simp [alistKeys])

/-- C2: in the merged identity map every submission_id maps to at most one
RANDOM_ID (the key list of the merged dict has no duplicates), and whenever the
diary map and the exit-survey map both contain a submission_id with different
RANDOM_IDs, the merged map resolves it to the exit-survey RANDOM_ID. -/
theorem claim_C2_identity_precedence (diaryRows exitRows : List SurveyRow)
    (sid ridA ridB : String) :
    (alistKeys (merged_submission_mapping diaryRows exitRows)).Nodup
    ∧ (alistGet (load_diary_unique_tuples diaryRows) sid = some ridA →
       alistGet (load_exit_survey_data exitRows) sid = some ridB →
       ridA ≠ ridB →
       alistGet (merged_submission_mapping diaryRows exitRows) sid = some ridB) := by
  constructor
  · exact dict_update_nodup _ _ (load_diary_nodup diaryRows)
  · intro _ hexit _
    exact alistGet_update_of_get _ _ _ _ (load_exit_nodup exitRows) hexit

/-- Witness for C2 at concrete data: submission id "5" is mapped to "PA" by the
diary row and to "PB" by the exit row; the merged map yields "PB". -/
theorem claim_C2_identity_precedence_witness :
    alistGet (merged_submission_mapping [⟨"5", "", "", "PA"⟩] [⟨"5", "", "", "PB"⟩]) "5"
      = some "PB" :=
  (claim_C2_identity_precedence [⟨"5", "", "", "PA"⟩] [⟨"5", "", "", "PB"⟩]
    "5" "PA" "PB").2 (by decide) (by decide) (by decide)

theorem diary_step_seen_mono (st : DiaryState) (r : SurveyRow) :
    ∀ tk ∈ st.seen, tk ∈ (diary_step st r).seen := by
  intro tk htk
  simp only [diary_step]
  split
  · exact htk
  · split
    · exact htk
    · exact List.mem_cons_of_mem _ htk

theorem foldl_diary_seen_mono (rows : List SurveyRow) (st : DiaryState) :
    ∀ tk ∈ st.seen, tk ∈ (rows.foldl diary_step st).seen := by
  induction rows generalizing st with
  | nil => intro tk h; exact h
  | cons r rest ih =>
    intro tk h
    exact ih _ _ (diary_step_seen_mono st r tk h)

theorem diary_step_of_seen (st : DiaryState) (r : SurveyRow)
    (h : tupleKey r ∈ st.seen) : diary_step st r = st := by
  simp only [diary_step]
  split
  · rfl
  · split
    · rfl
    · rename_i hnin
      exact absurd h hnin

theorem diary_step_mem_seen (st : DiaryState) (r : SurveyRow)
    (h1 : trimmedIds r ≠ []) (h2 : pyStrip r.RANDOM_ID ≠ "") :
    tupleKey r ∈ (diary_step st r).seen := by
  simp only [diary_step]
  rw [if_neg (not_or.mpr ⟨h1, h2⟩)]
  split
  · rename_i hin
    exact hin
  · exact List.mem_cons_self _ _

theorem alistGet_foldl_insert_same (ids : List String) (m : List (String × String))
    (rid aid : String) (h : aid ∈ ids ∨ alistGet m aid = some rid) :
    alistGet (ids.foldl (fun m a => alistInsert m a rid) m) aid = some rid := by
  induction ids generalizing m with
  | nil =>
    rcases h with h | h
    · exact absurd h (List.not_mem_nil aid)
    · exact h
  | cons a rest ih =>
    apply ih
    rcases h with hmem | hget
    · rcases List.mem_cons.mp hmem with rfl | hmem
      · right
        rw [alistGet_insert, if_pos rfl]
      · left
        exact hmem
    · right
      rw [alistGet_insert]
      split
      · rfl
      · exact hget

/-- C6: a later diary row whose sorted non-empty submission-ID tuple equals that
of an earlier valid row contributes nothing to the map (the whole load is
unchanged when it is removed); a row with no RANDOM_ID or no non-empty
submission IDs leaves the state unchanged; and a row with an unseen tuple maps
every one of its own non-empty submission IDs to its RANDOM_ID. -/
theorem claim_C6_diary_tuple_dedup :
    (∀ (pre mid post : List SurveyRow) (r1 r2 : SurveyRow),
       trimmedIds r1 ≠ [] → pyStrip r1.RANDOM_ID ≠ "" → tupleKey r1 = tupleKey r2 →
       load_diary_unique_tuples (pre ++ r1 :: (mid ++ r2 :: post)) =
         load_diary_unique_tuples (pre ++ r1 :: (mid ++ post)))
    ∧ (∀ (st : DiaryState) (r : SurveyRow),
       trimmedIds r = [] ∨ pyStrip r.RANDOM_ID = "" → diary_step st r = st)
    ∧ (∀ (st : DiaryState) (r : SurveyRow),
       tupleKey r ∉ st.seen → trimmedIds r ≠ [] → pyStrip r.RANDOM_ID ≠ "" →
       ∀ aid ∈ trimmedIds r,
         alistGet (diary_step st r).map aid = some (pyStrip r.RANDOM_ID)) := by
  refine ⟨?_, ?_, ?_⟩
  · intro pre mid post r1 r2 h1 h2 heq
    unfold load_diary_unique_tuples
    rw [List.foldl_append, List.foldl_cons, List.foldl_append, List.foldl_append,
      List.foldl_cons]
    have hstep : diary_step
        (List.foldl diary_step (diary_step (List.foldl diary_step ⟨[], []⟩ pre) r1) mid) r2 =
        List.foldl diary_step (diary_step (List.foldl diary_step ⟨[], []⟩ pre) r1) mid := by
      apply diary_step_of_seen
      rw [← heq]
      exact foldl_diary_seen_mono mid _ _
        (diary_step_mem_seen (List.foldl diary_step ⟨[], []⟩ pre) r1 h1 h2)
    rw [hstep, List.foldl_cons, List.foldl_append]
  · intro st r h
    simp only [diary_step]
    rw [if_pos h]
  · intro st r hnin h1 h2 aid hmem
    simp only [tupleKey] at hnin
    simp only [diary_step]
    rw [if_neg (not_or.mpr ⟨h1, h2⟩), if_neg hnin]
    exact alistGet_foldl_insert_same _ _ _ _ (Or.inl hmem)

/-- Witness for C6 at concrete diary rows: row 2 repeats the tuple of row 1 (in a
different column order) and contributes nothing; an all-empty row is a no-op;
a fresh valid row maps its first submission ID to its RANDOM_ID. -/
theorem claim_C6_diary_tuple_dedup_witness :
    load_diary_unique_tuples [⟨"a", "b", "", "P1"⟩, ⟨"b", "a", "", "P2"⟩] =
      load_diary_unique_tuples [⟨"a", "b", "", "P1"⟩]
    ∧ diary_step ⟨[], []⟩ ⟨"", "", "", "P9"⟩ = ⟨[], []⟩
    ∧ alistGet (diary_step ⟨[], []⟩ ⟨"a", "b", "", "P1"⟩).map "a" =
        some (pyStrip (SurveyRow.mk "a" "b" "" "P1").RANDOM_ID) :=
  ⟨claim_C6_diary_tuple_dedup.1 [] [] [] ⟨"a", "b", "", "P1"⟩ ⟨"b", "a", "", "P2"⟩
      (by decide) (by decide) (by decide),
   claim_C6_diary_tuple_dedup.2.1 ⟨[], []⟩ ⟨"", "", "", "P9"⟩ (Or.inl (by decide)),
   claim_C6_diary_tuple_dedup.2.2 ⟨[], []⟩ ⟨"a", "b", "", "P1"⟩
      (by decide) (by decide) (by decide) "a" (by decide)⟩

/-!
Record linker / join engine (join_diary_activitywatch.py: perform_left_join and
the mapping-coverage statistics in main, lines 1091-1119).

ActivityWatch rows come out of `pandas.DataFrame.to_dict("records")`, so a
cell value can be a string, an integer, or a converted datetime object.  A
`PyVal` models such a cell: `PyVal.dt s` is a datetime-like object whose
`str()` rendering is `s` (it answers `hasattr(x, "strftime")` with True).
-/

/-- A Python cell value as seen by the join/dedup code. -/
inductive PyVal where
  | str (s : String)
  | int (n : Int)
  | dt (s : String)
deriving DecidableEq

/-- Model of Python `str(x)` on a cell value. -/
def pyValStr : PyVal → String
  | .str s => s
  | .int n => toString n
  | .dt s => s

/-- A decoded usage/unlock record: a dict from column name to cell value. -/
abbrev Row := List (String × PyVal)

/-- Canonical submission id of a row, from `perform_left_join`:
`row.get("submission_id", "")`, then `str(x)` for int/float values and
`str(x).strip()` otherwise. -/
def canon_submission_id (row : Row) : String :=
  match (alistGet row "submission_id").getD (.str "") with
  | .int n => toString n
  | v => pyStrip (pyValStr v)

/-- Contact-list enrichment variables for one RANDOM_ID
(load_contact_list_data builds all four fields for every entry). -/
structure ContactVars where
  Condition : String
  Platforms : String
  phoneType : String
  EnrollmentDate : String
deriving DecidableEq

/-- The enrichment of one matched row inside `perform_left_join`: append
RANDOM_ID and the four contact fields (empty strings if the RANDOM_ID has no
contact entry). -/
def enrich_row (row : Row) (rid : String) (contact : List (String × ContactVars)) : Row :=
  let base := alistInsert row "RANDOM_ID" (.str rid)
  match alistGet contact rid with
  | some cv =>
      alistInsert (alistInsert (alistInsert (alistInsert base
        "Condition" (.str cv.Condition))
        "Platforms" (.str cv.Platforms))
        "phoneType" (.str cv.phoneType))
        "EnrollmentDate" (.str cv.EnrollmentDate)
  | none =>
      alistInsert (alistInsert (alistInsert (alistInsert base
        "Condition" (.str ""))
        "Platforms" (.str ""))
        "phoneType" (.str ""))
        "EnrollmentDate" (.str "")

/-- Embedding of `perform_left_join`: keep a row only when
`submission_mapping.get(submission_id, "")` is non-empty (truthy), and enrich
it with RANDOM_ID and contact data. -/
def perform_left_join (aw_data : List Row) (mapping : List (String × String))
    (contact : List (String × ContactVars)) : List Row :=
  match aw_data with
  | [] => []
  | row :: rest =>
    let rid := (alistGet mapping (canon_submission_id row)).getD ""
    if rid = "" then perform_left_join rest mapping contact
    else enrich_row row rid contact :: perform_left_join rest mapping contact

/-- Model of Python `set.add` on a set represented as a duplicate-free list. -/
def setInsert (s : List String) (x : String) : List String :=
  if x ∈ s then s else s ++ [x]

/-- Embedding of the statistics loop in `main`: collect the canonical
submission ids of all records, skipping empty ones (`if submission_id:`). -/
def collect_submission_ids (rows : List Row) (s : List String) : List String :=
  match rows with
  | [] => s
  | row :: rest =>
    let sid := canon_submission_id row
    collect_submission_ids rest (if sid = "" then s else setInsert s sid)

/-- Embedding of `unmapped_submission_ids = all_submission_ids_in_data -
mapped_submission_ids` in `main` (set difference as a membership filter). -/
def unmapped_submission_ids (app_rows unlock_rows : List Row)
    (mapping : List (String × String)) : List String :=
  (collect_submission_ids unlock_rows (collect_submission_ids app_rows [])).filter
    (fun sid => decide (alistGet mapping sid = none))

theorem perform_left_join_append (l1 l2 : List Row) (m : List (String × String))
    (c : List (String × ContactVars)) :
    perform_left_join (l1 ++ l2) m c =
      perform_left_join l1 m c ++ perform_left_join l2 m c := by
  induction l1 with
  | nil => rfl
  | cons r rest ih =>
    simp only [List.cons_append, perform_left_join]
    split
    · exact ih
    · simp only [List.append_eq]
      rw [ih]
      rfl

theorem setInsert_mem (s : List String) (x y : String) (h : y ∈ s) :
    y ∈ setInsert s x := by
  unfold setInsert
  split
  · exact h
  · exact List.mem_append_left _ h

theorem setInsert_mem_self (s : List String) (x : String) : x ∈ setInsert s x := by
  unfold setInsert
  split
  · assumption
  · exact List.mem_append_right _ (List.mem_singleton.mpr rfl)

theorem collect_submission_ids_mono (rows : List Row) (s : List String) (y : String)
    (h : y ∈ s) : y ∈ collect_submission_ids rows s := by
  induction rows generalizing s with
  | nil => exact h
  | cons r rest ih =>
    simp only [collect_submission_ids]
    split
    · exact ih _ h
    · exact ih _ (setInsert_mem _ _ _ h)

theorem collect_submission_ids_mem (rows : List Row) (s : List String) (x : Row)
    (hx : x ∈ rows) (hne : canon_submission_id x ≠ "") :
    canon_submission_id x ∈ collect_submission_ids rows s := by
  induction rows generalizing s with
  | nil => exact absurd hx (List.not_mem_nil x)
  | cons r rest ih =>
    rcases List.mem_cons.mp hx with rfl | hx
    · simp only [collect_submission_ids, if_neg hne]
      exact collect_submission_ids_mono rest _ _ (setInsert_mem_self s _)
    · simp only [collect_submission_ids]
      split
      · exact ih _ hx
      · exact ih _ hx

/-- C3 (amended): a usage/unlock event whose canonical submission_id has no
entry in the identity map produces no joined record (removing it from the
input leaves the join output unchanged), and — provided its canonical
submission_id is non-empty — that submission_id is counted in the
unmapped-submission-ids statistic.  Events whose submission_id canonicalizes
to the empty string are dropped but excluded from the statistic. -/
theorem claim_C3_unresolvable_dropped (m : List (String × String))
    (c : List (String × ContactVars)) (x : Row)
    (h : alistGet m (canon_submission_id x) = none) :
    (∀ pre post : List Row,
       perform_left_join (pre ++ x :: post) m c = perform_left_join (pre ++ post) m c)
    ∧ (∀ app_rows unlock_rows : List Row,
       x ∈ app_rows ∨ x ∈ unlock_rows → canon_submission_id x ≠ "" →
       canon_submission_id x ∈ unmapped_submission_ids app_rows unlock_rows m) := by
  constructor
  · intro pre post
    rw [perform_left_join_append, perform_left_join_append]
    congr 1
    simp [perform_left_join, h]
  · intro app_rows unlock_rows hmem hne
    have hall : canon_submission_id x ∈
        collect_submission_ids unlock_rows (collect_submission_ids app_rows []) := by
      rcases hmem with hx | hx
      · exact collect_submission_ids_mono _ _ _
          (collect_submission_ids_mem app_rows [] x hx hne)
      · exact collect_submission_ids_mem _ _ x hx hne
    exact List.mem_filter.mpr ⟨hall, by simp [h]⟩

/-- Witness for C3 (amended) at concrete data: submission id "99" has no map
entry, the event is dropped from the join and "99" is counted as unmapped. -/
theorem claim_C3_unresolvable_dropped_witness :
    perform_left_join [[("submission_id", PyVal.str "99")]] [("7", "P1")] [] =
      perform_left_join [] [("7", "P1")] []
    ∧ "99" ∈ unmapped_submission_ids [[("submission_id", PyVal.str "99")]] [] [("7", "P1")] :=
  ⟨(claim_C3_unresolvable_dropped [("7", "P1")] [] [("submission_id", PyVal.str "99")]
      (by decide)).1 [] [],
   (claim_C3_unresolvable_dropped [("7", "P1")] [] [("submission_id", PyVal.str "99")]
      (by decide)).2 [[("submission_id", PyVal.str "99")]] [] (Or.inl (by decide))
      (by decide)⟩

/-- Counterexample to C3 as stated: an event whose submission_id is the empty
string is unresolvable (no map entry) and is dropped by the join, yet it is
not counted in the unmapped-submission-ids statistic, contradicting "every
such unresolvable submission_id is counted". -/
theorem claim_C3_counterexample :
    alistGet ([] : List (String × String))
        (canon_submission_id [("submission_id", PyVal.str "")]) = none
    ∧ perform_left_join [[("submission_id", PyVal.str "")]] [] [] = []
    ∧ canon_submission_id [("submission_id", PyVal.str "")] ∉
        unmapped_submission_ids [[("submission_id", PyVal.str "")]] [] [] := by
  refine ⟨rfl, rfl, ?_⟩
  decide

/-- C7: the submission_id comparison in the join tolerates type drift — an integer
submission_id and a whitespace-padded string holding the same decimal digits
canonicalize to the same string, so any identity-map lookup (and hence the
resolved RANDOM_ID) agrees on the two rows. -/
theorem claim_C7_type_drift (m : List (String × String)) (n : Int) (s : String)
    (r1 r2 : Row)
    (hs : pyStrip s = toString n)
    (h1 : alistGet r1 "submission_id" = some (.int n))
    (h2 : alistGet r2 "submission_id" = some (.str s)) :
    canon_submission_id r1 = canon_submission_id r2
    ∧ alistGet m (canon_submission_id r1) = alistGet m (canon_submission_id r2) := by
  have hc1 : canon_submission_id r1 = toString n := by
    unfold canon_submission_id
    rw [h1]
    rfl
  have hc2 : canon_submission_id r2 = toString n := by
    unfold canon_submission_id
    rw [h2]
    simpa [pyValStr] using hs
  refine ⟨hc1.trans hc2.symm, ?_⟩
  rw [hc1, hc2]

/-- Witness for C7: the integer 42 and the string " 42 " resolve to the same
RANDOM_ID "P001" under the map mapping "42" to "P001". -/
theorem claim_C7_type_drift_witness :
    canon_submission_id [("submission_id", PyVal.int 42)] =
      canon_submission_id [("submission_id", PyVal.str " 42 ")]
    ∧ alistGet [("42", "P001")] (canon_submission_id [("submission_id", PyVal.int 42)]) =
      alistGet [("42", "P001")] (canon_submission_id [("submission_id", PyVal.str " 42 ")]) :=
  claim_C7_type_drift [("42", "P001")] 42 " 42 "
    [("submission_id", PyVal.int 42)] [("submission_id", PyVal.str " 42 ")]
    (by decide) (by decide) (by decide)

/-!
Deduplicator (join_diary_activitywatch.py: deduplicate_app_usage,
deduplicate_screen_unlocks).
-/

/-- Dedup normalization of a non-session field: `str(row.get(k, "")).strip()`. -/
def dedupStrField (row : Row) (k : String) : String :=
  pyStrip (pyValStr ((alistGet row k).getD (.str "")))

/-- Dedup normalization of `session_datetime`: `str(x)` for datetime-like
values (those answering `hasattr(x, "strftime")`), else `str(x).strip()`. -/
def dedupSessionField (row : Row) : String :=
  match (alistGet row "session_datetime").getD (.str "") with
  | .dt s => s
  | v => pyStrip (pyValStr v)

/-- App-usage dedup fingerprint:
(RANDOM_ID, session_datetime, App, Duration (min), platform). -/
def app_usage_key (row : Row) : String × String × String × String × String :=
  (dedupStrField row "RANDOM_ID", dedupSessionField row,
   dedupStrField row "App", dedupStrField row "Duration (min)",
   dedupStrField row "platform")

/-- Screen-unlock dedup fingerprint: (RANDOM_ID, session_datetime, platform). -/
def screen_unlock_key (row : Row) : String × String × String :=
  (dedupStrField row "RANDOM_ID", dedupSessionField row, dedupStrField row "platform")

/-- The shared loop of both deduplicators: a seen-set of fingerprints,
first occurrence kept, later occurrences skipped. -/
def dedup_loop {K : Type} [DecidableEq K] (key : Row → K) (seen : List K) :
    List Row → List Row
  | [] => []
  | row :: rest =>
    if key row ∈ seen then dedup_loop key seen rest
    else row :: dedup_loop key (key row :: seen) rest

/-- Embedding of `deduplicate_app_usage`. -/
def deduplicate_app_usage (data : List Row) : List Row :=
  dedup_loop app_usage_key [] data

/-- Embedding of `deduplicate_screen_unlocks`. -/
def deduplicate_screen_unlocks (data : List Row) : List Row :=
  dedup_loop screen_unlock_key [] data

theorem dedup_loop_filter {K : Type} [DecidableEq K] (key : Row → K) (fp : K) :
    ∀ (l : List Row) (seen : List K),
      (dedup_loop key seen l).filter (fun r => decide (key r = fp)) =
        if fp ∈ seen then [] else (l.find? (fun r => decide (key r = fp))).toList := by
  intro l
  induction l with
  | nil =>
    intro seen
    simp only [dedup_loop, List.filter_nil, List.find?_nil]
    split <;> rfl
  | cons row rest ih =>
    intro seen
    simp only [dedup_loop]
    by_cases hk : key row ∈ seen
    · rw [if_pos hk, ih seen]
      by_cases hfp : fp ∈ seen
      · rw [if_pos hfp, if_pos hfp]
      · have hne : ¬ (key row = fp) := fun h => hfp (h ▸ hk)
        rw [if_neg hfp, if_neg hfp, List.find?_cons_of_neg]
        simp [hne]
    · rw [if_neg hk, List.filter_cons]
      by_cases hrow : key row = fp
      · rw [if_pos (by simp [hrow]), ih (key row :: seen),
          if_pos (by simp [hrow] : fp ∈ key row :: seen),
          if_neg (fun h => hk (hrow ▸ h)), List.find?_cons_of_pos]
        · rfl
        · simp [hrow]
      · rw [if_neg (by simp [hrow]), ih (key row :: seen)]
        by_cases hfp : fp ∈ seen
        · rw [if_pos (by simp [hfp]), if_pos hfp]
        · rw [if_neg (by
              simp only [List.mem_cons, not_or]
              exact ⟨fun h => hrow h.symm, hfp⟩ : ¬ fp ∈ key row :: seen),
            if_neg hfp, List.find?_cons_of_neg]
          simp [hrow]

theorem dedup_loop_sublist {K : Type} [DecidableEq K] (key : Row → K) :
    ∀ (l : List Row) (seen : List K), (dedup_loop key seen l).Sublist l := by
  intro l
  induction l with
  | nil =>
    intro seen
    simp [dedup_loop]
  | cons row rest ih =>
    intro seen
    simp only [dedup_loop]
    split
    · exact (ih seen).cons row
    · exact (ih _).cons₂ row

theorem dedup_loop_key_not_seen {K : Type} [DecidableEq K] (key : Row → K) :
    ∀ (l : List Row) (seen : List K) (r : Row),
      r ∈ dedup_loop key seen l → key r ∉ seen := by
  intro l
  induction l with
  | nil =>
    intro seen r h
    simp [dedup_loop] at h
  | cons row rest ih =>
    intro seen r h
    simp only [dedup_loop] at h
    split at h
    · exact ih seen r h
    · rename_i hrow
      rcases List.mem_cons.mp h with rfl | h
      · exact hrow
      · intro hr
        exact ih _ r h (List.mem_cons_of_mem _ hr)

theorem dedup_loop_keys_nodup {K : Type} [DecidableEq K] (key : Row → K) :
    ∀ (l : List Row) (seen : List K), ((dedup_loop key seen l).map key).Nodup := by
  intro l
  induction l with
  | nil =>
    intro seen
    simp [dedup_loop]
  | cons row rest ih =>
    intro seen
    simp only [dedup_loop]
    split
    · exact ih seen
    · simp only [List.map_cons, List.nodup_cons]
      refine ⟨fun hmem => ?_, ih _⟩
      obtain ⟨r, hr, hkey⟩ := List.mem_map.mp hmem
      exact dedup_loop_key_not_seen key rest _ r hr (hkey ▸ List.mem_cons_self _ _)

theorem dedup_loop_eq_self {K : Type} [DecidableEq K] (key : Row → K) :
    ∀ (l : List Row) (seen : List K), ((l.map key).Nodup) →
      (∀ k ∈ l.map key, k ∉ seen) → dedup_loop key seen l = l := by
  intro l
  induction l with
  | nil =>
    intro seen _ _
    rfl
  | cons row rest ih =>
    intro seen hnodup hdisj
    simp only [List.map_cons, List.nodup_cons] at hnodup
    simp only [dedup_loop]
    rw [if_neg (hdisj (key row) (List.mem_cons_self _ _))]
    congr 1
    refine ih (key row :: seen) hnodup.2 ?_
    intro k hk
    simp only [List.mem_cons, not_or]
    exact ⟨fun h => hnodup.1 (h ▸ hk), hdisj k (List.mem_cons_of_mem _ hk)⟩

/-- C4: each deduplicator keeps, for every fingerprint value, exactly the first
input record carrying that fingerprint (the filtered output is the singleton of
`find?` on the input, or empty if the fingerprint never occurs) — app usage on
(RANDOM_ID, session_datetime, App, Duration (min), platform), screen unlocks on
(RANDOM_ID, session_datetime, platform). -/
theorem claim_C4_first_occurrence_dedup :
    (∀ (data : List Row) (fp : String × String × String × String × String),
       (deduplicate_app_usage data).filter (fun r => decide (app_usage_key r = fp)) =
         (data.find? (fun r => decide (app_usage_key r = fp))).toList)
    ∧ (∀ (data : List Row) (fp : String × String × String),
       (deduplicate_screen_unlocks data).filter
           (fun r => decide (screen_unlock_key r = fp)) =
         (data.find? (fun r => decide (screen_unlock_key r = fp))).toList) := by
  constructor
  · intro data fp
    have h := dedup_loop_filter app_usage_key fp data []
    simpa [deduplicate_app_usage] using h
  · intro data fp
    have h := dedup_loop_filter screen_unlock_key fp data []
    simpa [deduplicate_screen_unlocks] using h

/-- C9: both deduplicators are idempotent — applying one to its own output
returns the output unchanged. -/
theorem claim_C9_dedup_idempotent :
    (∀ data : List Row,
       deduplicate_app_usage (deduplicate_app_usage data) = deduplicate_app_usage data)
    ∧ (∀ data : List Row,
       deduplicate_screen_unlocks (deduplicate_screen_unlocks data) =
         deduplicate_screen_unlocks data) := by
  constructor
  · intro data
    exact dedup_loop_eq_self app_usage_key _ []
      (dedup_loop_keys_nodup app_usage_key data []) (by simp)
  · intro data
    exact dedup_loop_eq_self screen_unlock_key _ []
      (dedup_loop_keys_nodup screen_unlock_key data []) (by simp)

/-- C10: the output of each deduplicator is an order-preserving subsequence of its
input (so every output record is an unmodified input record, in input order),
and the first record of a non-empty input is always retained. -/
theorem claim_C10_dedup_subsequence :
    (∀ data : List Row, (deduplicate_app_usage data).Sublist data)
    ∧ (∀ data : List Row, (deduplicate_screen_unlocks data).Sublist data)
    ∧ (∀ (r : Row) (rest : List Row), (deduplicate_app_usage (r :: rest)).head? = some r)
    ∧ (∀ (r : Row) (rest : List Row),
       (deduplicate_screen_unlocks (r :: rest)).head? = some r) := by
  refine ⟨fun data => dedup_loop_sublist _ data [],
          fun data => dedup_loop_sublist _ data [], ?_, ?_⟩
  · intro r rest
    simp [deduplicate_app_usage, dedup_loop]
  · intro r rest
    simp [deduplicate_screen_unlocks, dedup_loop]

/-!
OCR structuring (ocr/gemini_screenshot_analyzer.py: _validate_analysis_result
and the tail of analyze_screenshot).

The fields of the parsed model response that the validation logic reads are
embedded in `OcrResult`; `device_type_confidence` (a Python float) is modelled
as a rational.  Warnings are recorded by their `type` tag (their human-readable
message strings do not influence control flow).  The date-normalization step
run before validation only rewrites non-empty dates that are not "unknown" to
other such dates, so it affects neither the apps list nor which warnings or
errors fire, and is omitted here.
-/

/-- One entry of the `apps` array of a parsed OCR model response. -/
structure OcrApp where
  app_name : String
  time_spent_minutes : Int
deriving DecidableEq

/-- The fields of a parsed OCR model response read by `_validate_analysis_result`. -/
structure OcrResult where
  device_type_confidence : ℚ
  date_of_screenshot : String
  apps : List OcrApp
deriving DecidableEq

/-- Embedding of `_validate_analysis_result`: `Except.error` models the raise
of ScreenshotAnalysisError; `Except.ok` returns the analysis-warning tags in
emission order. -/
def validate_analysis_result (r : OcrResult) : Except String (List String) :=
  let w1 := if r.device_type_confidence < 3/10 then ["low_device_confidence"] else []
  let w2 := if r.date_of_screenshot = "unknown" ∨ r.date_of_screenshot = "" then
    ["unknown_date"] else []
  if r.apps.length = 0 then Except.error "ScreenshotAnalysisError"
  else
    let w3 := if r.apps.length < 2 then ["few_apps_detected"] else []
    Except.ok (w1 ++ w2 ++ w3)

/-- Embedding of the tail of `analyze_screenshot` after JSON parsing: the call
to `_validate_analysis_result` runs inside a `try` whose blanket
`except Exception` handler returns None, so a raised ScreenshotAnalysisError
becomes a `none` result; on success the result and its warning tags are
returned. -/
def analyze_screenshot_result (r : OcrResult) : Option (OcrResult × List String) :=
  match validate_analysis_result r with
  | .error _ => none
  | .ok ws => some (r, ws)

/-- Counterexample to C1 as stated: on a response with `apps = []`,
`analyze_screenshot` does not let the ScreenshotAnalysisError escape — its
blanket exception handler turns it into a silent `none` return, contradicting
"this failure propagates out of the analysis call as a catchable error, not as
a silent None/empty result". -/
theorem claim_C1_counterexample :
    (OcrResult.mk 1 "2025-01-01" []).apps = []
    ∧ analyze_screenshot_result (OcrResult.mk 1 "2025-01-01" []) = none := by
  constructor
  · rfl
  · rfl

/-- C1 (amended): for every OCR response with an empty apps list,
`_validate_analysis_result` raises ScreenshotAnalysisError rather than
returning (so the analysis never succeeds with an empty app list), but
`analyze_screenshot` catches the error and surfaces the failure to its caller
as a `None` return, not as a propagated exception; conversely a response with
a non-empty apps list never raises. -/
theorem claim_C1_zero_apps (r : OcrResult) (h : r.apps = []) :
    validate_analysis_result r = Except.error "ScreenshotAnalysisError"
    ∧ analyze_screenshot_result r = none := by
  have hv : validate_analysis_result r = Except.error "ScreenshotAnalysisError" := by
    unfold validate_analysis_result
    rw [if_pos (by simp [h])]
  exact ⟨hv, by simp [analyze_screenshot_result, hv]⟩

/-- Witness for C1 (amended) at a concrete zero-app response. -/
theorem claim_C1_zero_apps_witness :
    validate_analysis_result (OcrResult.mk (1/2) "unknown" []) =
      Except.error "ScreenshotAnalysisError"
    ∧ analyze_screenshot_result (OcrResult.mk (1/2) "unknown" []) = none :=
  claim_C1_zero_apps (OcrResult.mk (1/2) "unknown" []) rfl

/-!
Study-calendar mapper (join_diary_activitywatch.py: parse_enrollment_date,
calculate_study_day).

Dates are modelled by their (year, month, day) triple and an ordinal-day
function translated from the CPython function `datetime.date.toordinal`.  The string
parsers below model `datetime.strptime` for the five formats the code tries
(the CPython module hidden behind strptime accept 1-2 digit month/day/hour/minute/second
fields and an exactly-4-digit year, and the datetime constructor then validates
calendar ranges) and `datetime.fromisoformat` for the common
`YYYY-MM-DD[<sep>HH:MM[:SS[.frac]][±HH:MM[:SS]]]` shape.
-/

/-- Decimal value of a digit character. -/
def dval (c : Char) : Nat := c.toNat - 48

/-- Parse exactly four digit characters (strptime `%Y`). -/
def parseYear4 : List Char → Option (Nat × List Char)
  | a :: b :: c :: d :: rest =>
    if a.isDigit ∧ b.isDigit ∧ c.isDigit ∧ d.isDigit then
      some (dval a * 1000 + dval b * 100 + dval c * 10 + dval d, rest)
    else none
  | _ => none

/-- Parse a 1-2 digit numeric field as the CPython module hidden behind strptime do:
prefer a two-digit match when its value lies in `[lo2, hi2]`, else a one-digit
match with value in `[lo1, hi1]` (the token following such a field is always a
non-digit literal or end of input, so this is equivalent to the regex
alternation with backtracking). -/
def parseNum2or1 (lo2 hi2 lo1 hi1 : Nat) : List Char → Option (Nat × List Char)
  | c1 :: c2 :: rest =>
    if c1.isDigit then
      if c2.isDigit ∧ lo2 ≤ dval c1 * 10 + dval c2 ∧ dval c1 * 10 + dval c2 ≤ hi2 then
        some (dval c1 * 10 + dval c2, rest)
      else if lo1 ≤ dval c1 ∧ dval c1 ≤ hi1 then some (dval c1, c2 :: rest)
      else none
    else none
  | [c1] =>
    if c1.isDigit ∧ lo1 ≤ dval c1 ∧ dval c1 ≤ hi1 then some (dval c1, []) else none
  | [] => none

/-- Parse one literal character. -/
def parseLit (ch : Char) : List Char → Option (List Char)
  | c :: rest => if c = ch then some rest else none
  | [] => none

/-- Parse exactly two digit characters (fromisoformat fields). -/
def parse2Digits : List Char → Option (Nat × List Char)
  | a :: b :: rest =>
    if a.isDigit ∧ b.isDigit then some (dval a * 10 + dval b, rest) else none
  | _ => none

/-- Gregorian leap-year test (as in the CPython datetime module). -/
def isLeap (y : Int) : Bool := decide ((y % 4 = 0 ∧ y % 100 ≠ 0) ∨ y % 400 = 0)

/-- Days in a month (as in the CPython datetime module). -/
def daysInMonth (y m : Int) : Int :=
  if m = 2 then (if isLeap y then 29 else 28)
  else if m = 4 ∨ m = 6 ∨ m = 9 ∨ m = 11 then 30
  else 31

/-- Validity check of the `datetime` constructor for a (year, month, day). -/
def dateValidB (y m d : Int) : Bool :=
  decide (1 ≤ y ∧ y ≤ 9999 ∧ 1 ≤ m ∧ m ≤ 12 ∧ 1 ≤ d ∧ d ≤ daysInMonth y m)

/-- A Python `datetime.date` value (the date part of a datetime). -/
structure PyDate where
  year : Int
  month : Int
  day : Int
deriving DecidableEq

/-- Cumulative days before month `m` in a non-leap year. -/
def monthOffset (m : Int) : Int :=
  if m = 1 then 0 else if m = 2 then 31 else if m = 3 then 59 else if m = 4 then 90
  else if m = 5 then 120 else if m = 6 then 151 else if m = 7 then 181
  else if m = 8 then 212 else if m = 9 then 243 else if m = 10 then 273
  else if m = 11 then 304 else 334

/-- Model of CPython `datetime.date.toordinal` (ordinal 1 = 0001-01-01); date
subtraction `(a - b).days` is `toOrdinal a - toOrdinal b`. -/
def toOrdinal (d : PyDate) : Int :=
  365 * (d.year - 1) + (d.year - 1) / 4 - (d.year - 1) / 100 + (d.year - 1) / 400
    + monthOffset d.month + (if 2 < d.month ∧ isLeap d.year then 1 else 0) + d.day

/-- The `datetime(...)` constructor: validate and build the date part. -/
def mkValidDate (y m d : Nat) : Option PyDate :=
  if dateValidB y m d then some ⟨y, m, d⟩ else none

/-- Component parser for `%Y-%m-%d`. -/
def parse_date_Ymd (cs : List Char) : Option (Nat × Nat × Nat × List Char) := do
  let (y, cs) ← parseYear4 cs
  let cs ← parseLit '-' cs
  let (m, cs) ← parseNum2or1 1 12 1 9 cs
  let cs ← parseLit '-' cs
  let (d, cs) ← parseNum2or1 1 31 1 9 cs
  pure (y, m, d, cs)

/-- Component parser for `%m/%d/%Y`. -/
def parse_date_mdY (cs : List Char) : Option (Nat × Nat × Nat × List Char) := do
  let (m, cs) ← parseNum2or1 1 12 1 9 cs
  let cs ← parseLit '/' cs
  let (d, cs) ← parseNum2or1 1 31 1 9 cs
  let cs ← parseLit '/' cs
  let (y, cs) ← parseYear4 cs
  pure (y, m, d, cs)

/-- Component parser for `%d/%m/%Y`. -/
def parse_date_dmY (cs : List Char) : Option (Nat × Nat × Nat × List Char) := do
  let (d, cs) ← parseNum2or1 1 31 1 9 cs
  let cs ← parseLit '/' cs
  let (m, cs) ← parseNum2or1 1 12 1 9 cs
  let cs ← parseLit '/' cs
  let (y, cs) ← parseYear4 cs
  pure (y, m, d, cs)

/-- Component parser for `%H:%M:%S`. -/
def parse_time_HMS (cs : List Char) : Option (Nat × Nat × Nat × List Char) := do
  let (h, cs) ← parseNum2or1 0 23 0 9 cs
  let cs ← parseLit ':' cs
  let (mi, cs) ← parseNum2or1 0 59 0 9 cs
  let cs ← parseLit ':' cs
  let (s, cs) ← parseNum2or1 0 59 0 9 cs
  pure (h, mi, s, cs)

/-- Model of `datetime.strptime` with format "%Y-%m-%d". -/
def strptime_Ymd (s : String) : Option PyDate :=
  match parse_date_Ymd s.data with
  | some (y, m, d, []) => mkValidDate y m d
  | _ => none

/-- Model of `datetime.strptime` with format "%m/%d/%Y". -/
def strptime_mdY (s : String) : Option PyDate :=
  match parse_date_mdY s.data with
  | some (y, m, d, []) => mkValidDate y m d
  | _ => none

/-- Model of `datetime.strptime` with format "%d/%m/%Y". -/
def strptime_dmY (s : String) : Option PyDate :=
  match parse_date_dmY s.data with
  | some (y, m, d, []) => mkValidDate y m d
  | _ => none

/-- Model of `datetime.strptime` with format "%Y-%m-%d %H:%M:%S" (only the date part is kept,
but the time part must parse). -/
def strptime_Ymd_HMS (s : String) : Option PyDate :=
  match parse_date_Ymd s.data with
  | some (y, m, d, ' ' :: rest) =>
    match parse_time_HMS rest with
    | some (_, _, _, []) => mkValidDate y m d
    | _ => none
  | _ => none

/-- Model of `datetime.strptime` with format "%m/%d/%Y %H:%M:%S". -/
def strptime_mdY_HMS (s : String) : Option PyDate :=
  match parse_date_mdY s.data with
  | some (y, m, d, ' ' :: rest) =>
    match parse_time_HMS rest with
    | some (_, _, _, []) => mkValidDate y m d
    | _ => none
  | _ => none

/-- Embedding of `parse_enrollment_date`: empty string gives no value, else try
the five formats in order on the stripped string; all failing gives no value
(the ValueError of each attempt is caught and the loop continues). -/
def parse_enrollment_date (date_str : String) : Option PyDate :=
  if date_str = "" then none
  else
    match strptime_Ymd (pyStrip date_str) with
    | some d => some d
    | none =>
      match strptime_mdY (pyStrip date_str) with
      | some d => some d
      | none =>
        match strptime_dmY (pyStrip date_str) with
        | some d => some d
        | none =>
          match strptime_Ymd_HMS (pyStrip date_str) with
          | some d => some d
          | none => strptime_mdY_HMS (pyStrip date_str)

/-- Model of the replacement of "Z" by "+00:00" on the character list. -/
def replaceZChars : List Char → List Char
  | [] => []
  | c :: rest =>
    if c = 'Z' then '+' :: '0' :: '0' :: ':' :: '0' :: '0' :: replaceZChars rest
    else c :: replaceZChars rest

/-- Model of the Python expression replacing every "Z" in a string by "+00:00". -/
def replaceZ (s : String) : String := String.mk (replaceZChars s.data)

/-- ISO timezone suffix `±HH:MM[:SS]` after the sign: returns the remaining
characters on success. -/
def parseIsoOffsetTail (cs : List Char) : Option (List Char) := do
  let (oh, cs) ← parse2Digits cs
  let cs ← parseLit ':' cs
  let (om, cs) ← parse2Digits cs
  if oh ≤ 23 ∧ om ≤ 59 then
    match cs with
    | ':' :: r2 => do
        let (os, r3) ← parse2Digits r2
        if os ≤ 59 then pure r3 else none
    | _ => pure cs
  else none

/-- Validity of an ISO timezone suffix (or its absence). -/
def isoOffsetOk : List Char → Bool
  | [] => true
  | c :: rest =>
    decide (c = '+' ∨ c = '-') &&
    (match parseIsoOffsetTail rest with
     | some [] => true
     | _ => false)

/-- Optional ISO seconds (and fractional seconds) after `HH:MM`. -/
def parseIsoSecondsTail : List Char → Option (List Char)
  | ':' :: rest => do
      let (s, rest) ← parse2Digits rest
      if s ≤ 59 then
        match rest with
        | '.' :: r2 =>
          if (r2.takeWhile Char.isDigit).length = 0 then none
          else pure (r2.drop (r2.takeWhile Char.isDigit).length)
        | _ => pure rest
      else none
  | rest => pure rest

/-- Validity of the ISO time-of-day portion `HH:MM[:SS[.frac]][offset]`. -/
def isoTimeOk (cs : List Char) : Bool :=
  match (do
    let (h, cs) ← parse2Digits cs
    let cs ← parseLit ':' cs
    let (mi, cs) ← parse2Digits cs
    if h ≤ 23 ∧ mi ≤ 59 then parseIsoSecondsTail cs else none) with
  | some rest => isoOffsetOk rest
  | none => false

/-- Strict `YYYY-MM-DD` head of an ISO string (2-digit month and day). -/
def parseIsoDatePart (cs : List Char) : Option (Nat × Nat × Nat × List Char) := do
  let (y, cs) ← parseYear4 cs
  let cs ← parseLit '-' cs
  let (m, cs) ← parse2Digits cs
  let cs ← parseLit '-' cs
  let (d, cs) ← parse2Digits cs
  pure (y, m, d, cs)

/-- Model of `datetime.fromisoformat`: a `YYYY-MM-DD` date, optionally followed
by a single separator character and a valid time-of-day portion. -/
def pyFromIsoformat (s : String) : Option PyDate :=
  match parseIsoDatePart s.data with
  | some (y, m, d, rest) =>
    match rest with
    | [] => mkValidDate y m d
    | _ :: timecs => if isoTimeOk timecs then mkValidDate y m d else none
  | none => none

/-- The `session_datetime` argument of `calculate_study_day`: either a
datetime/Timestamp object (whose date part is modelled directly; Timestamps
and plain datetimes both reduce to their date) or a raw
string still to be parsed. -/
inductive SessionArg where
  | obj (d : PyDate)
  | raw (s : String)
deriving DecidableEq

/-- The session-parsing chain inside `calculate_study_day`: for a string, first
`fromisoformat` on the string with "Z" rewritten to "+00:00", then
`strptime` with format "%Y-%m-%d %H:%M:%S", else no value. -/
def session_to_date : SessionArg → Option PyDate
  | .obj d => some d
  | .raw s =>
    match pyFromIsoformat (replaceZ s) with
    | some d => some d
    | none => strptime_Ymd_HMS s

/-- Embedding of `calculate_study_day`: no value without an enrollment date or
a parseable session datetime; otherwise `(session_date - enrollment_date).days
+ 1`, kept only within `[1, 28]`. -/
def calculate_study_day (session : SessionArg) (enrollment : Option PyDate) :
    Option Int :=
  match enrollment with
  | none => none
  | some e =>
    match session_to_date session with
    | none => none
    | some sd =>
      if 1 ≤ (toOrdinal sd - toOrdinal e) + 1 ∧ (toOrdinal sd - toOrdinal e) + 1 ≤ 28 then
        some ((toOrdinal sd - toOrdinal e) + 1)
      else none

/-- C5: with enrollment date 2025-01-01, sessions on 2025-01-01 / 2025-01-28 /
2025-01-29 map to study day 1 / 28 / none respectively; no study day is
assigned when the enrollment date is missing or the session datetime is
unparseable; and in general a study day `k` is returned exactly when the
session parses and `k = (session_date - enrollment_date).days + 1` lies in
`[1, 28]`. -/
theorem claim_C5_study_day :
    calculate_study_day (.raw "2025-01-01 10:00:00")
        (parse_enrollment_date "2025-01-01") = some 1
    ∧ calculate_study_day (.raw "2025-01-28 09:30:00")
        (parse_enrollment_date "2025-01-01") = some 28
    ∧ calculate_study_day (.raw "2025-01-29 00:00:00")
        (parse_enrollment_date "2025-01-01") = none
    ∧ (∀ session : SessionArg, calculate_study_day session none = none)
    ∧ (∀ (session : SessionArg) (e : Option PyDate), session_to_date session = none →
        calculate_study_day session e = none)
    ∧ (∀ (session : SessionArg) (e : PyDate) (k : Int),
        calculate_study_day session (some e) = some k ↔
          ∃ sd, session_to_date session = some sd ∧
            k = (toOrdinal sd - toOrdinal e) + 1 ∧ 1 ≤ k ∧ k ≤ 28) := by
  refine ⟨by decide, by decide, by decide, fun session => rfl, ?_, ?_⟩
  · intro session e h
    cases e with
    | none => rfl
    | some e => simp [calculate_study_day, h]
  · intro session e k
    rcases hsd : session_to_date session with _ | sd
    · simp [calculate_study_day, hsd]
    · simp only [calculate_study_day, hsd]
      split
      · rename_i hin
        simp only [Option.some.injEq]
        constructor
        · rintro rfl
          exact ⟨sd, rfl, rfl, hin.1, hin.2⟩
        · rintro ⟨sd', hsd', rfl, h1, h28⟩
          obtain rfl : sd' = sd := hsd'.symm
          rfl
      · rename_i hin
        constructor
        · intro h
          exact absurd h (by simp)
        · rintro ⟨sd', hsd', rfl, h1, h28⟩
          obtain rfl : sd' = sd := (Option.some.inj hsd').symm
          exact absurd ⟨h1, h28⟩ hin

/-- Witness for C5 at concrete inputs: missing enrollment date gives no study
day; an unparseable session string gives no study day; a session four days
after enrollment yields study day 5. -/
theorem claim_C5_study_day_witness :
    calculate_study_day (.raw "2025-01-05 08:00:00") none = none
    ∧ calculate_study_day (.raw "garbage") (some ⟨2025, 1, 1⟩) = none
    ∧ (∃ sd, session_to_date (.raw "2025-01-05 08:00:00") = some sd ∧
        (5 : Int) = (toOrdinal sd - toOrdinal ⟨2025, 1, 1⟩) + 1 ∧
        (1 : Int) ≤ 5 ∧ (5 : Int) ≤ 28) :=
  ⟨claim_C5_study_day.2.2.2.1 _,
   claim_C5_study_day.2.2.2.2.1 (.raw "garbage") (some ⟨2025, 1, 1⟩) (by decide),
   (claim_C5_study_day.2.2.2.2.2 (.raw "2025-01-05 08:00:00") ⟨2025, 1, 1⟩ 5).mp
     (by decide)⟩

/-!
JSON-blob decoder datetime builder (parse_json_uploads.py:
create_session_datetime_string).

`dateutil.parser.parse` is modelled for the `<date> <time>` strings this
decoder builds (ISO-style date, 1-2 digit time fields); any other input is a
parse failure, modelling the exception the `except` clause catches.
-/

/-- A Python `datetime` value (date and time of day). -/
structure PyDateTime where
  year : Int
  month : Int
  day : Int
  hour : Int
  minute : Int
  second : Int
deriving DecidableEq

/-- Model of `dateutil.parser.parse` restricted to the `"YYYY-MM-DD H:M:S"`
shape this decoder produces; a failure models the raised exception. -/
def dateutil_parse (s : String) : Option PyDateTime :=
  match parse_date_Ymd s.data with
  | some (y, m, d, ' ' :: rest) =>
    match parse_time_HMS rest with
    | some (h, mi, sec, []) =>
      if dateValidB y m d then some ⟨y, m, d, h, mi, sec⟩ else none
    | _ => none
  | _ => none

/-- Zero-pad a number to two digits (strftime field). -/
def pad2 (n : Int) : String := if n < 10 then "0" ++ toString n else toString n

/-- Zero-pad a year to four digits (strftime `%Y`). -/
def pad4 (n : Int) : String :=
  if n < 10 then "000" ++ toString n
  else if n < 100 then "00" ++ toString n
  else if n < 1000 then "0" ++ toString n
  else toString n

/-- Model of `dt.strftime("%Y-%m-%d %H:%M:%S")`. -/
def strftimeYmdHMS (dt : PyDateTime) : String :=
  pad4 dt.year ++ "-" ++ pad2 dt.month ++ "-" ++ pad2 dt.day ++ " " ++
  pad2 dt.hour ++ ":" ++ pad2 dt.minute ++ ":" ++ pad2 dt.second

/-- Model of the Python expression counting the colons of time_str. -/
def countColon (s : String) : Nat := (s.data.filter (fun c => c = ':')).length

/-- The coercion step appending ":00" when time_str holds exactly one colon. -/
def coerced_time (time_str : String) : String :=
  if countColon time_str = 1 then time_str ++ ":00" else time_str

/-- Embedding of `create_session_datetime_string`: empty date or time strings
give the empty string; a time with exactly one colon gets ":00" appended before
parsing; the combined string is parsed and reformatted, and any parse failure
(the caught exception) gives the empty string. -/
def create_session_datetime_string (date_str time_str : String) : String :=
  if date_str ≠ "" ∧ time_str ≠ "" then
    match dateutil_parse (date_str ++ " " ++ coerced_time time_str) with
    | some dt => strftimeYmdHMS dt
    | none => ""
  else ""

/-- C8: the session-datetime builder is total in the sense that every input
pair yields either the empty string or the reformatted parse of the combined
string; when the time string contains exactly one colon the seconds ":00" is
appended before parsing; empty date or time inputs give the empty string; and
any parse failure gives the empty string instead of an exception. -/
theorem claim_C8_session_datetime_total :
    (∀ date_str time_str : String,
       create_session_datetime_string date_str time_str = ""
       ∨ ∃ dt, dateutil_parse (date_str ++ " " ++ coerced_time time_str) = some dt
           ∧ create_session_datetime_string date_str time_str = strftimeYmdHMS dt)
    ∧ (∀ date_str time_str : String,
       date_str ≠ "" → time_str ≠ "" → countColon time_str = 1 →
       create_session_datetime_string date_str time_str =
         (match dateutil_parse (date_str ++ " " ++ (time_str ++ ":00")) with
          | some dt => strftimeYmdHMS dt
          | none => ""))
    ∧ (∀ time_str : String, create_session_datetime_string "" time_str = "")
    ∧ (∀ date_str : String, create_session_datetime_string date_str "" = "")
    ∧ (∀ date_str time_str : String,
       dateutil_parse (date_str ++ " " ++ coerced_time time_str) = none →
       create_session_datetime_string date_str time_str = "") := by
  refine ⟨?_, ?_, ?_, ?_, ?_⟩
  · intro d t
    unfold create_session_datetime_string
    by_cases hc : d ≠ "" ∧ t ≠ ""
    · rw [if_pos hc]
      cases hp : dateutil_parse (d ++ " " ++ coerced_time t) with
      | none => exact Or.inl rfl
      | some dt => exact Or.inr ⟨dt, rfl, rfl⟩
    · rw [if_neg hc]
      exact Or.inl rfl
  · intro d t hd ht hcount
    unfold create_session_datetime_string
    rw [if_pos ⟨hd, ht⟩]
    unfold coerced_time
    rw [if_pos hcount]
  · intro t
    unfold create_session_datetime_string
    rw [if_neg (by simp)]
  · intro d
    unfold create_session_datetime_string
    rw [if_neg (by simp)]
  · intro d t hp
    unfold create_session_datetime_string
    by_cases hc : d ≠ "" ∧ t ≠ ""
    · rw [if_pos hc, hp]
    · rw [if_neg hc]

/-- Witness for C8: time "10:00" (one colon) is coerced to "10:00:00" and the
combined string parses and is reformatted; a malformed time yields "". -/
theorem claim_C8_session_datetime_total_witness :
    create_session_datetime_string "2025-03-01" "10:00" = "2025-03-01 10:00:00"
    ∧ create_session_datetime_string "2025-03-01" "nonsense" = "" := by
  constructor
  · rw [claim_C8_session_datetime_total.2.1 "2025-03-01" "10:00"
      (by decide) (by decide) (by decide)]
    decide
  · exact claim_C8_session_datetime_total.2.2.2.2 "2025-03-01" "nonsense" (by decide)

end GamingReduction
